import Mathlib

/-!
Verification of the per-frame interaction core of `src/index.js`
(hand-tracking-pointerdrag).

The embedding mirrors the source: ecsy components become Lean structures,
each ecsy `System.execute` becomes a pure function on the world state, and
`world.execute` becomes a fold over the registered systems.  JS numbers are
modelled as rationals (`ℚ`); JS strings stay `String`; nullable references
become `Option`.  Button `action` callbacks are zero-argument and opaque, so
a pass reports *whether* each entity's action fired instead of running it.
-/

namespace HandTracking

/-- A parent slot in the three.js scene graph, as reachable from the core:
either an ordinary scene node, or `children[0]` of a hand pointer (the slot
`DraggableSystem` attaches dragged objects to). -/
inductive ParentRef where
  | node (id : Nat)
  | pointerChild (pointer : Nat)
deriving DecidableEq, Repr

/-- The slice of a bound `THREE.Object3D` that the core reads or writes:
parent link, scale, position and visibility. -/
structure Object3D where
  parent : Option ParentRef := none
  scale : ℚ × ℚ × ℚ := (1, 1, 1)
  position : ℚ × ℚ × ℚ := (0, 0, 0)
  visible : Bool := true
deriving DecidableEq, Repr

/-- `Button` component (src/index.js lines 23-29); the `action` callback is
modelled by the fire reports of the Button pass. -/
structure Button where
  currState : String := "none"
  prevState : String := "none"
deriving DecidableEq, Repr

/-- `Draggable` component (src/index.js lines 60-67).  `attachedPointer`
stores the index of a hand pointer. -/
structure Draggable where
  state : String := "none"
  originalParent : Option ParentRef := none
  attachedPointer : Option Nat := none
deriving DecidableEq, Repr

/-- An ecsy entity: its optional data components plus its tag components.
Tag components (`Intersectable`, `HandsInstructionText`, `NeedCalibration`)
carry no data and are Booleans. -/
structure Entity where
  object : Option Object3D := none
  button : Option Button := none
  draggable : Option Draggable := none
  intersectable : Bool := false
  handsInstructionText : Bool := false
  offsetFromCamera : Option (ℚ × ℚ × ℚ) := none
  needCalibration : Bool := false
deriving DecidableEq, Repr

/-- The mutable state of an `OculusHandPointerModel` that the core touches:
the `isAttached()/setAttached` flag and the last `setCursor` distance. -/
structure HandPointer where
  attached : Bool := false
  cursor : ℚ := 0
deriving DecidableEq, Repr

/-- The world state: entities in query iteration order, and the hand
pointers in the order they were handed to `HandRaySystem`. -/
structure WorldState where
  entities : List Entity
  pointers : List HandPointer
deriving DecidableEq, Repr

/-- Per-frame reading of one hand pointer: `isPinched()` and, for each
entity index, the ascending-distance hit list `intersectObject` returns for
that entity's bound object. -/
structure PointerInput where
  pinched : Bool
  hits : Nat → List ℚ

/-- Everything the host supplies for one rendered frame. -/
structure FrameInput where
  pointerInput : Nat → PointerInput
  sessionActive : Bool
  cameraPosition : ℚ × ℚ × ℚ
  controllersVisible : List Bool

/-! ## ButtonSystem (src/index.js lines 31-58) -/

/-- The guard of src/index.js line 42:
`button.currState === "pressed" && button.prevState !== "pressed"`. -/
def buttonFired (b : Button) : Bool :=
  b.currState == "pressed" && b.prevState != "pressed"

/-- Lines 48-49: `button.prevState = button.currState; button.currState = "none"`. -/
def buttonStep (b : Button) : Button :=
  { currState := "none", prevState := b.currState }

/-- Lines 36-40: scale 1 when `currState == "none"`, else 1.1. -/
def buttonScale (b : Button) : ℚ × ℚ × ℚ :=
  if b.currState == "none" then (1, 1, 1) else (11/10, 11/10, 11/10)

/-- One iteration of the `ButtonSystem.execute` loop for one entity.  The
query asks for `Button` only; the host guarantees the `Object3D` component
is present (a missing one would be a `MissingComponentError`), so an entity
without it is left unchanged here. -/
def buttonExecuteEntity (e : Entity) : Entity :=
  match e.button with
  | none => e
  | some b =>
    { e with
      object := e.object.map (fun o => { o with scale := buttonScale b })
      button := some (buttonStep b) }

/-- Whether the entity's `action` is invoked in this Button pass. -/
def entityFired (e : Entity) : Bool :=
  match e.button with
  | some b => buttonFired b
  | none => false

/-- `ButtonSystem.execute` over the whole query. -/
def buttonExecute (es : List Entity) : List Entity :=
  es.map buttonExecuteEntity

/-- The per-entity fire reports of one Button pass, aligned with `es`. -/
def buttonFires (es : List Entity) : List Bool :=
  es.map entityFired

/-! ## DraggableSystem (src/index.js lines 69-98) -/

/-- One iteration of the `DraggableSystem.execute` loop for one entity.
Lines 74-76 capture `originalParent` whenever it is still null, before the
switch on `state`.  In the `to-be-attached` branch the JS
`draggable.attachedPointer.children[0].attach(object)` reparents the object
under the claiming pointer; in the `to-be-detached` branch
`draggable.originalParent.attach(object)` reparents it back.  (When the JS
reference being dereferenced is null those branches would throw; the model
writes a null parent instead — no claim touches that corner.)

`draggableCapture` is the lazy capture of lines 74-76. -/
def draggableCapture (d : Draggable) (o : Object3D) : Draggable :=
  if d.originalParent = none then { d with originalParent := o.parent } else d

/-- The `switch (draggable.state)` of lines 78-89, run on the captured
component `d1`. -/
def draggableSwitch (d1 : Draggable) (o : Object3D) (e : Entity) : Entity :=
  if d1.state == "to-be-attached" then
    { e with
      draggable := some { d1 with state := "attached" }
      object := some { o with parent := d1.attachedPointer.map ParentRef.pointerChild } }
  else if d1.state == "to-be-detached" then
    { e with
      draggable := some { d1 with state := "detached" }
      object := some { o with parent := d1.originalParent } }
  else
    { e with
      draggable := some d1
      object := some { o with scale := (1, 1, 1) } }

/-- One iteration of the `DraggableSystem.execute` loop for one entity:
capture `originalParent` if still null, then run the state switch. -/
def draggableExecuteEntity (e : Entity) : Entity :=
  match e.draggable, e.object with
  | some d, some o => draggableSwitch (draggableCapture d o) o e
  | _, _ => e

/-- `DraggableSystem.execute` over the whole query. -/
def draggableExecute (es : List Entity) : List Entity :=
  es.map draggableExecuteEntity

/-! ## CalibrationSystem (src/index.js lines 202-227) -/

/-- One iteration of the `CalibrationSystem.execute` loop: if an XR session
is active, move the bound object to camera position plus offset and remove
the `NeedCalibration` tag; otherwise leave the entity for the next frame.
The host guarantees `OffsetFromCamera` is present on tagged entities. -/
def calibrationExecuteEntity (session : Bool) (cam : ℚ × ℚ × ℚ) (e : Entity) : Entity :=
  if e.needCalibration then
    if session then
      { e with
        object := e.object.map (fun o =>
          { o with
            position :=
              (cam.1 + (e.offsetFromCamera.getD (0, 0, 0)).1,
               cam.2.1 + (e.offsetFromCamera.getD (0, 0, 0)).2.1,
               cam.2.2 + (e.offsetFromCamera.getD (0, 0, 0)).2.2) })
        needCalibration := false }
    else e
  else e

/-- `CalibrationSystem.execute` over the whole world. -/
def calibrationExecute (session : Bool) (cam : ℚ × ℚ × ℚ) (es : List Entity) : List Entity :=
  es.map (calibrationExecuteEntity session cam)

/-! ## InstructionSystem (src/index.js lines 166-190) -/

/-- Lines 172-177: `visible` starts false and becomes true if any controller
in the fixed list is visible. -/
def instructionVisible (controllers : List Bool) : Bool :=
  controllers.foldl (fun visible c => if c then true else visible) false

/-- Lines 179-182: write the computed flag onto every tagged entity. -/
def instructionExecuteEntity (v : Bool) (e : Entity) : Entity :=
  if e.handsInstructionText then
    { e with object := e.object.map (fun o => { o with visible := v }) }
  else e

/-- `InstructionSystem.execute` over the whole world. -/
def instructionExecute (controllers : List Bool) (es : List Entity) : List Entity :=
  es.map (instructionExecuteEntity (instructionVisible controllers))

/-! ## HandRaySystem (src/index.js lines 102-162) -/

/-- The comparison of line 115:
`distance == null || intersections[0].distance < distance`. -/
def beatsDistance (d : ℚ) (dist : Option ℚ) : Bool :=
  match dist with
  | none => true
  | some d0 => decide (d < d0)

/-- The inner loop of lines 111-120: fold the `(distance, intersectingEntity)`
accumulator over the intersectable entities, numbering them from `i`. -/
def intersectScanFrom (hits : Nat → List ℚ) :
    Nat → List Entity → Option ℚ × Option Nat → Option ℚ × Option Nat
  | _, [], acc => acc
  | i, e :: rest, (dist, win) =>
    intersectScanFrom hits (i + 1) rest
      (if e.intersectable then
        match hits i with
        | [] => (dist, win)
        | d :: _ => if beatsDistance d dist then (some d, some i) else (dist, win)
      else (dist, win))

/-- The `(distance, intersectingEntity)` pair a pointer ends the scan with. -/
def intersectWinner (hits : Nat → List ℚ) (es : List Entity) : Option ℚ × Option Nat :=
  intersectScanFrom hits 0 es (none, none)

/-- The "no target" cursor distance of line 152: `hp.setCursor(1.5)`. -/
def noTargetCursor : ℚ := 3/2

/-- JS truthiness of the `distance` variable at line 121 (`if (distance)`):
null is falsy, and so is the number 0. -/
def truthy : Option ℚ → Bool
  | none => false
  | some d => !(decide (d = 0))

/-- Lines 123-130: hover/press update for a winning entity that has a
`Button` component. -/
def handRayButtonUpdate (pinched : Bool) (e : Entity) : Entity :=
  match e.button with
  | none => e
  | some b =>
    if pinched then { e with button := some { b with currState := "pressed" } }
    else if b.currState != "pressed" then
      { e with button := some { b with currState := "hovered" } }
    else e

/-- Lines 132-150: attach/detach request for a winning entity that has a
`Draggable` component; `pi` is the index of the pointer `hp`. -/
def handRayDraggableUpdate (pinched : Bool) (pi : Nat) (hp : HandPointer) (e : Entity) :
    Entity × HandPointer :=
  match e.draggable with
  | none => (e, hp)
  | some d =>
    let e1 := { e with object := e.object.map (fun o => { o with scale := (11/10, 11/10, 11/10) }) }
    if pinched then
      if !hp.attached && d.state != "attached" then
        ({ e1 with draggable := some { d with state := "to-be-attached", attachedPointer := some pi } },
         { hp with attached := true })
      else (e1, hp)
    else
      if hp.attached && d.state == "attached" then
        ({ e1 with draggable := some { d with state := "to-be-detached", attachedPointer := none } },
         { hp with attached := false })
      else (e1, hp)

/-- The body of the `handPointers.forEach` of lines 108-154 for one pointer:
scan for the nearest intersected entity, then either set the cursor and
update the winner's Button/Draggable components, or set the 1.5 sentinel.
The two `none` fallbacks are unreachable (a non-null distance always comes
with a winner index into `es`).

`handRayWinnerUpdate` performs lines 123-150 on the winning entity. -/
def handRayWinnerUpdate (inp : PointerInput) (pi : Nat) (hp1 : HandPointer)
    (es : List Entity) : Option Nat → HandPointer × List Entity
  | none => (hp1, es)
  | some w =>
    match es.get? w with
    | none => (hp1, es)
    | some e =>
      ((handRayDraggableUpdate inp.pinched pi hp1 (handRayButtonUpdate inp.pinched e)).2,
       es.set w (handRayDraggableUpdate inp.pinched pi hp1 (handRayButtonUpdate inp.pinched e)).1)

def handRayExecutePointer (inp : PointerInput) (pi : Nat) (hp : HandPointer)
    (es : List Entity) : HandPointer × List Entity :=
  if truthy (intersectWinner inp.hits es).1 then
    handRayWinnerUpdate inp pi { hp with cursor := (intersectWinner inp.hits es).1.getD 0 } es
      (intersectWinner inp.hits es).2
  else
    ({ hp with cursor := noTargetCursor }, es)

/-- The `forEach` over the ordered hand pointers, threading entity updates
from one pointer to the next; `i` numbers the pointers. -/
def handRayLoop (inp : Nat → PointerInput) :
    Nat → List HandPointer → List Entity → List HandPointer × List Entity
  | _, [], es => ([], es)
  | i, hp :: hps, es =>
    let r1 := handRayExecutePointer (inp i) i hp es
    let r2 := handRayLoop inp (i + 1) hps r1.2
    (r1.1 :: r2.1, r2.2)

/-- `HandRaySystem.execute` on the whole world state. -/
def handRayExecute (inp : Nat → PointerInput) (s : WorldState) : WorldState :=
  let r := handRayLoop inp 0 s.pointers s.entities
  { entities := r.2, pointers := r.1 }

/-! ## The per-frame world execution -/

/-- The five systems of the core. -/
inductive SystemName where
  | instruction
  | calibration
  | button
  | draggable
  | handRay
deriving DecidableEq, Repr

/-- The registration order of src/index.js lines 399-408:
`InstructionSystem`, `CalibrationSystem`, `ButtonSystem`, `DraggableSystem`,
`HandRaySystem`. -/
def registeredSystems : List SystemName :=
  [.instruction, .calibration, .button, .draggable, .handRay]

/-- Dispatch one system over the world state. -/
def applySystem (inp : FrameInput) (s : WorldState) : SystemName → WorldState
  | .instruction => { s with entities := instructionExecute inp.controllersVisible s.entities }
  | .calibration =>
      { s with entities := calibrationExecute inp.sessionActive inp.cameraPosition s.entities }
  | .button => { s with entities := buttonExecute s.entities }
  | .draggable => { s with entities := draggableExecute s.entities }
  | .handRay => handRayExecute inp.pointerInput s

/-- Modelled from the spec: `world.execute` of the vendored ecsy library
(libs/ecsy.module.js, not under src/) runs each registered system exactly
once per frame, synchronously, in registration order — "the source enforces
it only by incidental listing order". -/
def frame (inp : FrameInput) (s : WorldState) : WorldState :=
  registeredSystems.foldl (applySystem inp) s

/-- Several frames in a row (the `setAnimationLoop` render loop). -/
def run (inputs : List FrameInput) (s : WorldState) : WorldState :=
  inputs.foldl (fun t i => frame i t) s

/-- Which button actions fire during `frame inp s`: the Button pass tests
each entity after the Instruction and Calibration passes have run. -/
def frameFires (inp : FrameInput) (s : WorldState) : List Bool :=
  buttonFires (applySystem inp (applySystem inp s .instruction) .calibration).entities

/-! ## Per-pass component-preservation lemmas -/

theorem instructionExecuteEntity_button (v : Bool) (e : Entity) :
    (instructionExecuteEntity v e).button = e.button := by
  unfold instructionExecuteEntity; split <;> rfl

theorem instructionExecuteEntity_draggable (v : Bool) (e : Entity) :
    (instructionExecuteEntity v e).draggable = e.draggable := by
  unfold instructionExecuteEntity; split <;> rfl

theorem instructionExecuteEntity_needCalibration (v : Bool) (e : Entity) :
    (instructionExecuteEntity v e).needCalibration = e.needCalibration := by
  unfold instructionExecuteEntity; split <;> rfl

theorem instructionExecuteEntity_parent (v : Bool) (e : Entity) :
    ((instructionExecuteEntity v e).object).map Object3D.parent = (e.object).map Object3D.parent := by
  unfold instructionExecuteEntity; split
  · cases e.object <;> rfl
  · rfl

theorem calibrationExecuteEntity_button (sess : Bool) (cam : ℚ × ℚ × ℚ) (e : Entity) :
    (calibrationExecuteEntity sess cam e).button = e.button := by
  unfold calibrationExecuteEntity; split <;> [split <;> rfl; rfl]

theorem calibrationExecuteEntity_draggable (sess : Bool) (cam : ℚ × ℚ × ℚ) (e : Entity) :
    (calibrationExecuteEntity sess cam e).draggable = e.draggable := by
  unfold calibrationExecuteEntity; split <;> [split <;> rfl; rfl]

theorem calibrationExecuteEntity_parent (sess : Bool) (cam : ℚ × ℚ × ℚ) (e : Entity) :
    ((calibrationExecuteEntity sess cam e).object).map Object3D.parent
      = (e.object).map Object3D.parent := by
  unfold calibrationExecuteEntity
  split
  · split
    · cases e.object <;> rfl
    · rfl
  · rfl

theorem buttonExecuteEntity_button (e : Entity) :
    (buttonExecuteEntity e).button = e.button.map buttonStep := by
  cases hb : e.button <;> simp [buttonExecuteEntity, hb]

theorem buttonExecuteEntity_draggable (e : Entity) :
    (buttonExecuteEntity e).draggable = e.draggable := by
  unfold buttonExecuteEntity; split <;> rfl

theorem buttonExecuteEntity_needCalibration (e : Entity) :
    (buttonExecuteEntity e).needCalibration = e.needCalibration := by
  unfold buttonExecuteEntity; split <;> rfl

theorem buttonExecuteEntity_parent (e : Entity) :
    ((buttonExecuteEntity e).object).map Object3D.parent = (e.object).map Object3D.parent := by
  unfold buttonExecuteEntity; split
  · rfl
  · cases e.object <;> rfl

theorem draggableSwitch_button (d1 : Draggable) (o : Object3D) (e : Entity) :
    (draggableSwitch d1 o e).button = e.button := by
  unfold draggableSwitch; split <;> [rfl; split <;> rfl]

theorem draggableExecuteEntity_button (e : Entity) :
    (draggableExecuteEntity e).button = e.button := by
  unfold draggableExecuteEntity
  split <;> [exact draggableSwitch_button _ _ _; rfl]

theorem draggableSwitch_needCalibration (d1 : Draggable) (o : Object3D) (e : Entity) :
    (draggableSwitch d1 o e).needCalibration = e.needCalibration := by
  unfold draggableSwitch; split <;> [rfl; split <;> rfl]

theorem draggableExecuteEntity_needCalibration (e : Entity) :
    (draggableExecuteEntity e).needCalibration = e.needCalibration := by
  unfold draggableExecuteEntity
  split <;> [exact draggableSwitch_needCalibration _ _ _; rfl]

theorem handRayButtonUpdate_draggable (p : Bool) (e : Entity) :
    (handRayButtonUpdate p e).draggable = e.draggable := by
  unfold handRayButtonUpdate
  split
  · rfl
  · split
    · rfl
    · split <;> rfl

theorem handRayButtonUpdate_needCalibration (p : Bool) (e : Entity) :
    (handRayButtonUpdate p e).needCalibration = e.needCalibration := by
  unfold handRayButtonUpdate
  split
  · rfl
  · split
    · rfl
    · split <;> rfl

theorem handRayButtonUpdate_object (p : Bool) (e : Entity) :
    (handRayButtonUpdate p e).object = e.object := by
  unfold handRayButtonUpdate
  split
  · rfl
  · split
    · rfl
    · split <;> rfl

theorem handRayDraggableUpdate_needCalibration (p : Bool) (pi : Nat) (hp : HandPointer)
    (e : Entity) : (handRayDraggableUpdate p pi hp e).1.needCalibration = e.needCalibration := by
  unfold handRayDraggableUpdate
  split
  · rfl
  · split
    · split <;> rfl
    · split <;> rfl

theorem handRayDraggableUpdate_parent (p : Bool) (pi : Nat) (hp : HandPointer) (e : Entity) :
    ((handRayDraggableUpdate p pi hp e).1.object).map Object3D.parent
      = (e.object).map Object3D.parent := by
  unfold handRayDraggableUpdate
  split
  · rfl
  · split
    · split <;> (cases e.object <;> rfl)
    · split <;> (cases e.object <;> rfl)

theorem handRayDraggableUpdate_cursor (p : Bool) (pi : Nat) (hp : HandPointer) (e : Entity) :
    (handRayDraggableUpdate p pi hp e).2.cursor = hp.cursor := by
  unfold handRayDraggableUpdate
  split
  · rfl
  · split
    · split <;> rfl
    · split <;> rfl

/-- The frame is the five passes applied in registration order. -/
theorem frame_eq_passes (inp : FrameInput) (s : WorldState) :
    frame inp s =
      applySystem inp (applySystem inp (applySystem inp
        (applySystem inp (applySystem inp s .instruction) .calibration) .button) .draggable)
        .handRay := rfl

/-- A field that one entity update preserves is preserved index-wise by the
corresponding `List.set`. -/
theorem get?_set_map_eq {β : Type} (es : List Entity) (w : Nat) (e e2 : Entity)
    (f : Entity → β) (hw : es.get? w = some e) (hf : f e2 = f e) (j : Nat) :
    ((es.set w e2).get? j).map f = (es.get? j).map f := by
  by_cases hj : w = j
  · subst hj
    rw [List.get?_set_eq, hw]
    simp [hf]
  · rw [List.get?_set_ne _ _ hj]

/-- HandRay never adds the `NeedCalibration` tag to an entity. -/
theorem handRayExecutePointer_needCal (inp : PointerInput) (pi : Nat) (hp : HandPointer)
    (es : List Entity) (j : Nat) :
    (((handRayExecutePointer inp pi hp es).2.get? j).map Entity.needCalibration)
      = ((es.get? j).map Entity.needCalibration) := by
  unfold handRayExecutePointer
  split
  · unfold handRayWinnerUpdate
    rcases (intersectWinner inp.hits es).2 with _ | w
    · rfl
    · dsimp only
      rcases hw : es.get? w with _ | e
      · rfl
      · exact get?_set_map_eq es w e _ Entity.needCalibration hw
          (by rw [handRayDraggableUpdate_needCalibration, handRayButtonUpdate_needCalibration]) j
  · rfl

theorem handRayLoop_needCal (inp : Nat → PointerInput) :
    ∀ (hps : List HandPointer) (i : Nat) (es : List Entity) (j : Nat),
      (((handRayLoop inp i hps es).2.get? j).map Entity.needCalibration)
        = ((es.get? j).map Entity.needCalibration) := by
  intro hps
  induction hps with
  | nil => intro i es j; rfl
  | cons hp hps ih =>
    intro i es j
    show (((handRayLoop inp (i + 1) hps (handRayExecutePointer (inp i) i hp es).2).2.get? j).map
        Entity.needCalibration) = _
    rw [ih, handRayExecutePointer_needCal]

/-- The entities a frame produces: the four map passes followed by the
HandRay loop over the pointers. -/
theorem frame_entities_eq (inp : FrameInput) (s : WorldState) :
    (frame inp s).entities =
      (handRayLoop inp.pointerInput 0 s.pointers
        (draggableExecute (buttonExecute (calibrationExecute inp.sessionActive
          inp.cameraPosition (instructionExecute inp.controllersVisible s.entities))))).2 := rfl

/-- The four non-HandRay passes can only clear the `NeedCalibration` tag,
never set it. -/
theorem prePasses_needCal (inp : FrameInput) (e : Entity)
    (h : (draggableExecuteEntity (buttonExecuteEntity (calibrationExecuteEntity
      inp.sessionActive inp.cameraPosition
      (instructionExecuteEntity (instructionVisible inp.controllersVisible) e)))).needCalibration
        = true) :
    e.needCalibration = true := by
  rw [draggableExecuteEntity_needCalibration, buttonExecuteEntity_needCalibration] at h
  unfold calibrationExecuteEntity at h
  split at h
  · split at h
    · simp at h
    · rwa [instructionExecuteEntity_needCalibration] at h
  · rwa [instructionExecuteEntity_needCalibration] at h

/-- The `NeedCalibration` tag is monotone across a whole frame: no pass ever
re-adds it. -/
theorem frame_needCal_mono (inp : FrameInput) (s : WorldState) (j : Nat) (e' : Entity)
    (h : (frame inp s).entities.get? j = some e') (htag : e'.needCalibration = true) :
    ∃ e, s.entities.get? j = some e ∧ e.needCalibration = true := by
  rw [frame_entities_eq] at h
  have h5 := handRayLoop_needCal inp.pointerInput s.pointers 0
    (draggableExecute (buttonExecute (calibrationExecute inp.sessionActive
      inp.cameraPosition (instructionExecute inp.controllersVisible s.entities)))) j
  rw [h] at h5
  simp only [draggableExecute, buttonExecute, calibrationExecute, instructionExecute,
    List.get?_map] at h5
  rcases he : s.entities.get? j with _ | e
  · rw [he] at h5
    simp at h5
  · refine ⟨e, rfl, ?_⟩
    rw [he] at h5
    simp only [Option.map_some'] at h5
    have h6 := Option.some.inj h5
    exact prePasses_needCal inp e (by rw [← h6]; exact htag)

/-! ## C9 -/

/-- C9: every execution of the Button pass ends with `prevState` equal to
the `currState` the entity had when the pass ran and with `currState` equal
to `"none"`; consequently, when nothing re-establishes `currState` later in
the frame (here: a world with no hand pointers, so the HandRay pass is a
no-op), every button entity ends the frame with `currState = "none"`. -/
theorem buttonPass_shifts_then_clears :
    (∀ e b, e.button = some b →
      (buttonExecuteEntity e).button = some (buttonStep b) ∧
      (buttonStep b).prevState = b.currState ∧ (buttonStep b).currState = "none") ∧
    (∀ inp s, s.pointers = [] → ∀ j e' b',
      (frame inp s).entities.get? j = some e' → e'.button = some b' →
      b'.currState = "none") := by
  constructor
  · intro e b hb
    refine ⟨?_, rfl, rfl⟩
    unfold buttonExecuteEntity
    rw [hb]
  · intro inp s hps j e' b' h hb
    rw [frame_entities_eq, hps] at h
    simp only [handRayLoop] at h
    simp only [draggableExecute, buttonExecute, List.get?_map] at h
    rcases hx : (calibrationExecute inp.sessionActive inp.cameraPosition
        (instructionExecute inp.controllersVisible s.entities)).get? j with _ | ec
    · rw [hx] at h; simp at h
    · rw [hx] at h
      simp only [Option.map_some'] at h
      have he' : e' = draggableExecuteEntity (buttonExecuteEntity ec) :=
        (Option.some.inj h).symm
      rw [he', draggableExecuteEntity_button, buttonExecuteEntity_button] at hb
      rcases Option.map_eq_some'.mp hb with ⟨b0, _, hstep⟩
      rw [← hstep]
      rfl

def c9Entity : Entity := { button := some { currState := "pressed", prevState := "none" } }

theorem buttonPass_shifts_then_clears_witness :
    c9Entity.button = some { currState := "pressed", prevState := "none" } ∧
    (buttonExecuteEntity c9Entity).button
      = some (buttonStep { currState := "pressed", prevState := "none" }) ∧
    (buttonStep { currState := "pressed", prevState := "none" }).prevState = "pressed" ∧
    (buttonStep { currState := "pressed", prevState := "none" }).currState = "none" :=
  ⟨rfl, buttonPass_shifts_then_clears.1 c9Entity _ rfl⟩

/-! ## C8 -/

theorem instructionVisible_eq_any (cs : List Bool) : instructionVisible cs = cs.any id := by
  suffices h : ∀ acc, cs.foldl (fun visible c => if c then true else visible) acc
      = (acc || cs.any id) by
    unfold instructionVisible
    rw [h false]
    simp
  induction cs with
  | nil => intro acc; simp
  | cons c cs ih =>
    intro acc
    show cs.foldl _ (if c then true else acc) = _
    rw [ih]
    cases c <;> cases acc <;> simp

/-- C8: the Instruction-Visibility pass computes one boolean, the OR of the
tracked-hand controller visibility flags, writes that same boolean onto the
bound object of every entity tagged `HandsInstructionText` (regardless of
the object's previous `visible` flag, so no state survives across frames),
and leaves untagged entities alone. -/
theorem instructionPass_or_visibility :
    (∀ cs, instructionVisible cs = cs.any id) ∧
    (∀ cs e ob, e.handsInstructionText = true → e.object = some ob →
      instructionExecuteEntity (instructionVisible cs) e
        = { e with object := some { ob with visible := cs.any id } }) ∧
    (∀ v e, e.handsInstructionText = false → instructionExecuteEntity v e = e) := by
  refine ⟨instructionVisible_eq_any, ?_, ?_⟩
  · intro cs e ob htag hob
    unfold instructionExecuteEntity
    rw [htag, hob]
    simp [instructionVisible_eq_any]
  · intro v e htag
    unfold instructionExecuteEntity
    rw [htag]
    rfl

def c8Entity : Entity := { handsInstructionText := true, object := some {} }

theorem instructionPass_or_visibility_witness :
    (c8Entity.handsInstructionText = true ∧ c8Entity.object = some {}) ∧
    instructionExecuteEntity (instructionVisible [false, true]) c8Entity
      = { c8Entity with object := some { ({} : Object3D) with visible := [false, true].any id } } :=
  ⟨⟨rfl, rfl⟩, instructionPass_or_visibility.2.1 [false, true] c8Entity {} rfl rfl⟩

/-! ## C7 -/

/-- C7: with an active tracking session, the Calibration pass moves a
`NeedCalibration` entity's bound object to the tracking camera position plus
the entity's stored offset and removes the tag; with no session the entity
is left unchanged; an untagged entity is never touched; and no pass of the
frame ever re-adds the tag, so calibration happens at most once. -/
theorem calibrationPass_one_shot :
    (∀ cam e off ob, e.needCalibration = true → e.offsetFromCamera = some off →
      e.object = some ob →
      calibrationExecuteEntity true cam e =
        { e with
          object := some { ob with
            position := (cam.1 + off.1, cam.2.1 + off.2.1, cam.2.2 + off.2.2) }
          needCalibration := false }) ∧
    (∀ cam e, calibrationExecuteEntity false cam e = e) ∧
    (∀ sess cam e, e.needCalibration = false → calibrationExecuteEntity sess cam e = e) ∧
    (∀ inp s j e', (frame inp s).entities.get? j = some e' → e'.needCalibration = true →
      ∃ e, s.entities.get? j = some e ∧ e.needCalibration = true) := by
  refine ⟨?_, ?_, ?_, fun inp s j e' h htag => frame_needCal_mono inp s j e' h htag⟩
  · intro cam e off ob htag hoff hob
    unfold calibrationExecuteEntity
    rw [htag, hoff, hob]
    rfl
  · intro cam e
    unfold calibrationExecuteEntity
    split <;> rfl
  · intro sess cam e htag
    unfold calibrationExecuteEntity
    rw [htag]
    rfl

def c7Entity : Entity :=
  { needCalibration := true, offsetFromCamera := some (2, 0, 1), object := some {} }

theorem calibrationPass_one_shot_witness :
    (c7Entity.needCalibration = true ∧ c7Entity.offsetFromCamera = some (2, 0, 1) ∧
      c7Entity.object = some {}) ∧
    calibrationExecuteEntity true (1, 1, 1) c7Entity =
      { c7Entity with
        object := some { ({} : Object3D) with
          position := ((1 : ℚ) + 2, (1 : ℚ) + 0, (1 : ℚ) + 1) }
        needCalibration := false } :=
  ⟨⟨rfl, rfl, rfl⟩, calibrationPass_one_shot.1 (1, 1, 1) c7Entity (2, 0, 1) {} rfl rfl rfl⟩

/-! ## C1 -/

/-- One step of "the hold continues": between two Button passes the HandRay
pass re-establishes `currState = "pressed"` (a pinch over the button). -/
def pressedHold (b : Button) : Button :=
  { b with currState := "pressed" }

/-- How many times the action fires over `n` consecutive Button passes while
the pressed state is held (re-established before each pass). -/
def pressedRun : Button → Nat → Nat
  | _, 0 => 0
  | b, n + 1 =>
    (if buttonFired (pressedHold b) then 1 else 0) + pressedRun (buttonStep (pressedHold b)) n

theorem pressedRun_of_prev_pressed :
    ∀ (n : Nat) (b : Button), b.prevState = "pressed" → pressedRun b n = 0 := by
  intro n
  induction n with
  | zero => intro b _; rfl
  | succ n ih =>
    intro b hb
    show (if buttonFired (pressedHold b) then 1 else 0) + _ = 0
    have hf : buttonFired (pressedHold b) = false := by
      unfold buttonFired pressedHold
      simp [hb]
    rw [hf]
    simpa using ih (buttonStep (pressedHold b)) rfl

/-- C1: the Button pass invokes the bound action in a frame exactly when the
entity's `prevState` is not `"pressed"` and its `currState` is `"pressed"`
at the moment the pass runs (the state at the start of the frame, since the
earlier Instruction and Calibration passes never touch buttons); each Button
pass reports at most one invocation per entity; and a pressed state held
over `n ≥ 1` consecutive Button passes fires the action exactly once. -/
theorem buttonAction_fires_once_per_edge :
    (∀ e b, e.button = some b →
      (entityFired e = true ↔ (b.currState = "pressed" ∧ b.prevState ≠ "pressed"))) ∧
    (∀ inp s, frameFires inp s = s.entities.map entityFired) ∧
    (∀ b n, b.prevState ≠ "pressed" → 1 ≤ n → pressedRun b n = 1) := by
  refine ⟨?_, ?_, ?_⟩
  · intro e b hb
    unfold entityFired
    rw [hb]
    unfold buttonFired
    simp
  · intro inp s
    unfold frameFires buttonFires
    simp only [applySystem, instructionExecute, calibrationExecute, List.map_map]
    refine List.map_congr_left ?_
    intro e _
    show entityFired (calibrationExecuteEntity _ _ (instructionExecuteEntity _ e)) = entityFired e
    unfold entityFired
    rw [calibrationExecuteEntity_button, instructionExecuteEntity_button]
  · intro b n hb hn
    rcases n with _ | m
    · omega
    · show (if buttonFired (pressedHold b) then 1 else 0) + _ = 1
      have hf : buttonFired (pressedHold b) = true := by
        unfold buttonFired pressedHold
        simp [hb]
      rw [hf]
      simp [pressedRun_of_prev_pressed m (buttonStep (pressedHold b)) rfl]

theorem buttonAction_fires_once_per_edge_witness :
    (({} : Button).prevState ≠ "pressed" ∧ 1 ≤ 3) ∧ pressedRun {} 3 = 1 :=
  ⟨⟨by decide, by decide⟩,
    buttonAction_fires_once_per_edge.2.2 {} 3 (by decide) (by decide)⟩

/-! ## C3 -/

theorem handRayWinnerUpdate_cursor (inp : PointerInput) (pi : Nat) (hp1 : HandPointer)
    (es : List Entity) (win : Option Nat) :
    (handRayWinnerUpdate inp pi hp1 es win).1.cursor = hp1.cursor := by
  unfold handRayWinnerUpdate
  rcases win with _ | w
  · rfl
  · dsimp only
    rcases es.get? w with _ | e
    · rfl
    · exact handRayDraggableUpdate_cursor _ _ _ _

/-- C3 (amended): per pointer and frame, if the minimal hit distance is a
nonzero `d` then `setCursor d` happens; if there is no hit — or the minimal
hit distance is exactly 0, which the JS truthiness test `if (distance)`
treats the same as no hit — then `setCursor(1.5)` happens.  The claim's
"including a winning distance of 0" is exactly the part that fails. -/
theorem handRay_cursor_amended (inp : PointerInput) (pi : Nat) (hp : HandPointer)
    (es : List Entity) :
    (∀ d : ℚ, (intersectWinner inp.hits es).1 = some d → d ≠ 0 →
      (handRayExecutePointer inp pi hp es).1.cursor = d) ∧
    ((intersectWinner inp.hits es).1 = none ∨ (intersectWinner inp.hits es).1 = some 0 →
      (handRayExecutePointer inp pi hp es).1.cursor = noTargetCursor) ∧
    noTargetCursor = 1.5 := by
  refine ⟨?_, ?_, by norm_num [noTargetCursor]⟩
  · intro d hd hd0
    unfold handRayExecutePointer
    rw [hd]
    have ht : truthy (some d) = true := by
      unfold truthy
      simpa using hd0
    rw [ht]
    simp only [if_true]
    rw [handRayWinnerUpdate_cursor]
    rfl
  · intro h
    unfold handRayExecutePointer
    rcases h with h | h <;> rw [h]
    · rfl
    · have ht : truthy (some (0 : ℚ)) = false := by
        unfold truthy
        simp
      rw [ht]
      rfl

def c3Entity : Entity := { intersectable := true, object := some {} }

def c3ZeroInput : PointerInput := { pinched := false, hits := fun _ => [0] }

/-- C3 counterexample: a single intersected entity whose nearest hit is at
distance 0.  A winner exists (the scan returns entity 0 at distance 0), yet
the cursor is set to the 1.5 sentinel, not to the winning distance 0. -/
theorem handRay_cursor_counterexample :
    intersectWinner c3ZeroInput.hits [c3Entity] = (some 0, some 0) ∧
    (handRayExecutePointer c3ZeroInput 0 {} [c3Entity]).1.cursor = noTargetCursor ∧
    noTargetCursor ≠ 0 := by
  refine ⟨by decide, rfl, by norm_num [noTargetCursor]⟩

def c3WitnessInput : PointerInput := { pinched := false, hits := fun _ => [2] }

theorem handRay_cursor_amended_witness :
    ((intersectWinner c3WitnessInput.hits [c3Entity]).1 = some 2 ∧ (2 : ℚ) ≠ 0) ∧
    (handRayExecutePointer c3WitnessInput 0 {} [c3Entity]).1.cursor = 2 :=
  ⟨⟨by decide, by decide⟩,
    (handRay_cursor_amended c3WitnessInput 0 {} [c3Entity]).1 2 (by decide) (by decide)⟩

/-! ## C10 -/

theorem draggableCapture_eq (d : Draggable) (o : Object3D) :
    draggableCapture d o =
      { d with
        originalParent := if d.originalParent = none then o.parent else d.originalParent } := by
  unfold draggableCapture
  split <;> simp_all

def c10Entity : Entity :=
  { draggable := some {}, object := some { parent := some (ParentRef.node 7) } }

/-- C10 counterexample: an entity on its first Draggable-pass update, in
state `"none"` (neither `"to-be-attached"` nor `"to-be-detached"`), does
not keep `originalParent` unchanged: the null value is overwritten by the
capture of src/index.js lines 74-76, which runs before the state switch. -/
theorem draggableDefault_counterexample :
    c10Entity.draggable
      = some { state := "none", originalParent := none, attachedPointer := none } ∧
    ((draggableExecuteEntity c10Entity).draggable).map Draggable.originalParent
      = some (some (ParentRef.node 7)) := ⟨rfl, rfl⟩

/-- C10 (amended): for a Draggable entity whose state is neither
`"to-be-attached"` nor `"to-be-detached"` — including `"attached"` — the
Draggable pass performs no reparenting, leaves `state` and
`attachedPointer` unchanged, leaves `originalParent` unchanged whenever it
is already set (when still null it is captured from the object's current
parent), and resets the bound object's scale to `(1, 1, 1)`. -/
theorem draggableDefault_amended (e : Entity) (d : Draggable) (ob : Object3D)
    (hd : e.draggable = some d) (ho : e.object = some ob)
    (h1 : d.state ≠ "to-be-attached") (h2 : d.state ≠ "to-be-detached") :
    draggableExecuteEntity e =
      { e with
        draggable := some { d with
          originalParent := if d.originalParent = none then ob.parent else d.originalParent }
        object := some { ob with scale := (1, 1, 1) } } := by
  have hswitch : draggableExecuteEntity e = draggableSwitch (draggableCapture d ob) ob e := by
    unfold draggableExecuteEntity
    rw [hd, ho]
  rw [hswitch, draggableCapture_eq]
  unfold draggableSwitch
  rw [if_neg, if_neg]
  · simpa using h2
  · simpa using h1

def c10AttachedEntity : Entity :=
  { draggable := some
      { state := "attached", originalParent := some (ParentRef.node 3),
        attachedPointer := some 0 }
    object := some { parent := some (ParentRef.pointerChild 0) } }

theorem draggableDefault_amended_witness :
    (c10AttachedEntity.draggable = some
        { state := "attached", originalParent := some (ParentRef.node 3),
          attachedPointer := some 0 } ∧
      ("attached" : String) ≠ "to-be-attached" ∧ ("attached" : String) ≠ "to-be-detached") ∧
    draggableExecuteEntity c10AttachedEntity =
      { c10AttachedEntity with
        draggable := some
          { state := "attached", originalParent := some (ParentRef.node 3),
            attachedPointer := some 0 }
        object := some { parent := some (ParentRef.pointerChild 0), scale := (1, 1, 1) } } :=
  ⟨⟨rfl, by decide, by decide⟩,
    draggableDefault_amended c10AttachedEntity _ _ rfl rfl (by decide) (by decide)⟩

/-! ## C2 -/

/-- The running minimum of the scan, abstracted to the list of
`(entityIndex, nearestHitDistance)` pairs the loop actually considers. -/
def runMin : List (Nat × ℚ) → Option ℚ × Option Nat → Option ℚ × Option Nat
  | [], acc => acc
  | c :: cs, (dist, win) =>
    runMin cs (if beatsDistance c.2 dist then (some c.2, some c.1) else (dist, win))

/-- The hitting candidates of the scan, numbering entities from `i`:
intersectable entities with a nonempty hit list, paired with their first
(nearest) hit distance. -/
def candidates (hits : Nat → List ℚ) : Nat → List Entity → List (Nat × ℚ)
  | _, [] => []
  | i, e :: rest =>
    (if e.intersectable then
      match hits i with
      | [] => []
      | d :: _ => [(i, d)]
    else []) ++ candidates hits (i + 1) rest

theorem candidates_cons (hits : Nat → List ℚ) (e : Entity) (rest : List Entity) (i : Nat) :
    candidates hits i (e :: rest) =
      (if e.intersectable then
        match hits i with
        | [] => []
        | d :: _ => [(i, d)]
      else []) ++ candidates hits (i + 1) rest := rfl

theorem intersectScanFrom_eq_runMin (hits : Nat → List ℚ) :
    ∀ (l : List Entity) (i : Nat) (acc : Option ℚ × Option Nat),
      intersectScanFrom hits i l acc = runMin (candidates hits i l) acc := by
  intro l
  induction l with
  | nil => intro i acc; rfl
  | cons e rest ih =>
    intro i acc
    rcases acc with ⟨dist, win⟩
    show intersectScanFrom hits (i + 1) rest _ = _
    rw [ih, candidates_cons]
    rcases he : e.intersectable
    · simp only [he, Bool.false_eq_true, if_false, ite_false, List.nil_append]
    · rcases hh : hits i with _ | ⟨d, tl⟩
      · simp only [he, hh, if_true, ite_true, List.nil_append]
      · simp only [he, hh, if_true, ite_true, List.cons_append, List.nil_append]
        rfl

theorem runMin_spec : ∀ (cs : List (Nat × ℚ)) (d0 : ℚ) (w0 : Option Nat),
    (runMin cs (some d0, w0) = (some d0, w0) ∧ ∀ c ∈ cs, d0 ≤ c.2) ∨
    (∃ pre c post, cs = pre ++ c :: post ∧
      runMin cs (some d0, w0) = (some c.2, some c.1) ∧ c.2 < d0 ∧
      (∀ c' ∈ pre, c.2 < c'.2) ∧ (∀ c' ∈ post, c.2 ≤ c'.2)) := by
  intro cs
  induction cs with
  | nil =>
    intro d0 w0
    left
    exact ⟨rfl, by simp⟩
  | cons c cs ih =>
    intro d0 w0
    by_cases hlt : c.2 < d0
    · have hstep : runMin (c :: cs) (some d0, w0) = runMin cs (some c.2, some c.1) := by
        show runMin cs (if beatsDistance c.2 (some d0) then _ else _) = _
        have hb : beatsDistance c.2 (some d0) = true := by
          unfold beatsDistance
          simpa using hlt
        rw [hb, if_pos rfl]
      right
      rcases ih c.2 (some c.1) with ⟨hrun, hall⟩ | ⟨pre, c', post, hsplit, hrun, hlt', hpre, hpost⟩
      · exact ⟨[], c, cs, rfl, by rw [hstep, hrun], hlt, by simp, hall⟩
      · refine ⟨c :: pre, c', post, by rw [hsplit]; rfl, by rw [hstep, hrun],
          lt_trans hlt' hlt, ?_, hpost⟩
        intro x hx
        rcases List.mem_cons.mp hx with h | h
        · rw [h]; exact hlt'
        · exact hpre x h
    · have hstep : runMin (c :: cs) (some d0, w0) = runMin cs (some d0, w0) := by
        show runMin cs (if beatsDistance c.2 (some d0) then _ else _) = _
        have hb : beatsDistance c.2 (some d0) = false := by
          unfold beatsDistance
          simpa using hlt
        rw [hb]
        simp
      rcases ih d0 w0 with ⟨hrun, hall⟩ | ⟨pre, c', post, hsplit, hrun, hlt', hpre, hpost⟩
      · left
        refine ⟨by rw [hstep, hrun], ?_⟩
        intro x hx
        rcases List.mem_cons.mp hx with h | h
        · rw [h]; exact le_of_not_lt hlt
        · exact hall x h
      · right
        refine ⟨c :: pre, c', post, by rw [hsplit]; rfl, by rw [hstep, hrun], hlt', ?_, hpost⟩
        intro x hx
        rcases List.mem_cons.mp hx with h | h
        · rw [h]; exact lt_of_lt_of_le hlt' (le_of_not_lt hlt)
        · exact hpre x h

theorem runMin_none_spec (cs : List (Nat × ℚ)) (h : cs ≠ []) :
    ∃ pre c post, cs = pre ++ c :: post ∧
      runMin cs (none, none) = (some c.2, some c.1) ∧
      (∀ c' ∈ pre, c.2 < c'.2) ∧ (∀ c' ∈ cs, c.2 ≤ c'.2) := by
  rcases cs with _ | ⟨c0, cs⟩
  · exact absurd rfl h
  · have hstep : runMin (c0 :: cs) (none, none) = runMin cs (some c0.2, some c0.1) := rfl
    rcases runMin_spec cs c0.2 (some c0.1) with ⟨hrun, hall⟩ |
      ⟨pre, c, post, hsplit, hrun, hlt, hpre, hpost⟩
    · refine ⟨[], c0, cs, rfl, by rw [hstep, hrun], by simp, ?_⟩
      intro c' hc'
      rcases List.mem_cons.mp hc' with h' | h'
      · rw [h']
      · exact hall c' h'
    · refine ⟨c0 :: pre, c, post, by rw [hsplit]; rfl, by rw [hstep, hrun], ?_, ?_⟩
      · intro x hx
        rcases List.mem_cons.mp hx with h' | h'
        · rw [h']; exact hlt
        · exact hpre x h'
      · intro c' hc'
        rcases List.mem_cons.mp hc' with h' | h'
        · rw [h']; exact le_of_lt hlt
        · rw [hsplit] at h'
          rcases List.mem_append.mp h' with h'' | h''
          · exact le_of_lt (hpre c' h'')
          · rcases List.mem_cons.mp h'' with h3 | h3
            · rw [h3]
            · exact hpost c' h3

theorem mem_candidates (hits : Nat → List ℚ) :
    ∀ (l : List Entity) (i : Nat) (c : Nat × ℚ),
      c ∈ candidates hits i l ↔
        ∃ k e, c.1 = i + k ∧ l.get? k = some e ∧ e.intersectable = true ∧
          (hits c.1).head? = some c.2 := by
  intro l
  induction l with
  | nil =>
    intro i c
    simp [candidates]
  | cons e rest ih =>
    intro i c
    constructor
    · intro hc
      rw [candidates_cons] at hc
      rcases List.mem_append.mp hc with h | h
      · rcases he : e.intersectable
        · rw [he] at h; simp at h
        · rw [he] at h
          rcases hh : hits i with _ | ⟨d, tl⟩
          · rw [hh] at h; simp at h
          · rw [hh] at h
            simp only [if_true, ite_true, List.mem_singleton] at h
            subst h
            exact ⟨0, e, by simp, rfl, he, by simp [hh]⟩
      · rcases (ih (i + 1) c).mp h with ⟨k, e', hk, hg, hint, hh⟩
        refine ⟨k + 1, e', by omega, by simpa using hg, hint, hh⟩
    · rintro ⟨k, e', hk, hg, hint, hh⟩
      rw [candidates_cons]
      apply List.mem_append.mpr
      rcases k with _ | k
      · left
        have he : e = e' := by simpa using hg
        have hc1 : c.1 = i := by omega
        rw [← he] at hint
        rw [hint, if_pos rfl]
        rw [hc1] at hh
        rcases hh' : hits i with _ | ⟨d, tl⟩
        · rw [hh'] at hh; simp at hh
        · rw [hh'] at hh
          simp only [List.head?_cons, Option.some_inj] at hh
          simp only [List.mem_singleton]
          rcases c with ⟨c1, c2⟩
          simp only [Prod.mk.injEq]
          exact ⟨hc1, hh.symm⟩
      · right
        apply (ih (i + 1) c).mpr
        exact ⟨k, e', by omega, by simpa using hg, hint, hh⟩

theorem candidates_index_le (hits : Nat → List ℚ) (l : List Entity) (i : Nat)
    (c : Nat × ℚ) (hc : c ∈ candidates hits i l) : i ≤ c.1 := by
  rcases (mem_candidates hits l i c).mp hc with ⟨k, e, hk, _⟩
  omega

theorem candidates_pairwise (hits : Nat → List ℚ) :
    ∀ (l : List Entity) (i : Nat),
      (candidates hits i l).Pairwise (fun a b => a.1 < b.1) := by
  intro l
  induction l with
  | nil => intro i; simp [candidates]
  | cons e rest ih =>
    intro i
    rw [candidates_cons]
    apply List.pairwise_append.mpr
    refine ⟨?_, ih (i + 1), ?_⟩
    · split
      · split <;> simp
      · simp
    · intro a ha b hb
      have hb1 : i + 1 ≤ b.1 := candidates_index_le hits rest (i + 1) b hb
      have ha1 : a.1 = i := by
        split at ha
        · rcases hh : hits i with _ | ⟨d, tl⟩
          · rw [hh] at ha; simp at ha
          · rw [hh] at ha
            simp only [List.mem_singleton] at ha
            rw [ha]
        · simp at ha
      omega

/-- C2: for every hand pointer (through its per-frame hit lists, each
sorted by ascending distance as `intersect` guarantees) and any entity set
with at least one hit on an intersectable entity, the Intersection scan
returns a winner: an intersectable entity whose nearest (first) hit
distance is globally minimal among all hits of all hitting entities, and
every hitting entity enumerated earlier in query order has a strictly
larger nearest distance — so ties keep the first entity found, and the
selection is a deterministic function of the entity list and distances. -/
theorem intersection_selects_nearest_first (hits : Nat → List ℚ) (es : List Entity)
    (hsort : ∀ i, (hits i).Sorted (· ≤ ·))
    (i₀ : Nat) (e₀ : Entity) (h₀ : es.get? i₀ = some e₀) (hint₀ : e₀.intersectable = true)
    (hhit₀ : hits i₀ ≠ []) :
    ∃ w dw ew, intersectWinner hits es = (some dw, some w) ∧
      es.get? w = some ew ∧ ew.intersectable = true ∧ (hits w).head? = some dw ∧
      (∀ j e, es.get? j = some e → e.intersectable = true → ∀ d ∈ hits j, dw ≤ d) ∧
      (∀ j e, es.get? j = some e → e.intersectable = true → j < w →
        ∀ d, (hits j).head? = some d → dw < d) := by
  have hscan : intersectWinner hits es = runMin (candidates hits 0 es) (none, none) := by
    unfold intersectWinner
    exact intersectScanFrom_eq_runMin hits es 0 (none, none)
  have hmem₀ : ∃ c : Nat × ℚ, c ∈ candidates hits 0 es := by
    rcases hh : hits i₀ with _ | ⟨d₀, tl₀⟩
    · exact absurd hh hhit₀
    · exact ⟨(i₀, d₀), (mem_candidates hits es 0 (i₀, d₀)).mpr
        ⟨i₀, e₀, by omega, h₀, hint₀, by rw [hh]; rfl⟩⟩
  rcases hmem₀ with ⟨cw, hcw⟩
  have hne : candidates hits 0 es ≠ [] := List.ne_nil_of_mem hcw
  rcases runMin_none_spec (candidates hits 0 es) hne with
    ⟨pre, c, post, hsplit, hrun, hpre, hall⟩
  have hcmem : c ∈ candidates hits 0 es := by
    rw [hsplit]
    exact List.mem_append.mpr (Or.inr (List.mem_cons_self c _))
  rcases (mem_candidates hits es 0 c).mp hcmem with ⟨k, ew, hk, hget, hint, hhead⟩
  have hk' : c.1 = k := by omega
  refine ⟨c.1, c.2, ew, by rw [hscan, hrun], by rw [hk']; exact hget, hint, hhead, ?_, ?_⟩
  · intro j e hj hintj d hd
    have hjne : hits j ≠ [] := by
      intro hnil
      rw [hnil] at hd
      simp at hd
    rcases hh : hits j with _ | ⟨dj, tl⟩
    · exact absurd hh hjne
    · have hcj : (j, dj) ∈ candidates hits 0 es :=
        (mem_candidates hits es 0 (j, dj)).mpr ⟨j, e, by omega, hj, hintj, by rw [hh]; rfl⟩
      have h1 : c.2 ≤ dj := hall (j, dj) hcj
      have h2 : dj ≤ d := by
        have hs := hsort j
        rw [hh] at hs
        rw [hh] at hd
        rcases List.mem_cons.mp hd with h' | h'
        · rw [h']
        · exact List.rel_of_sorted_cons hs d h'
      exact le_trans h1 h2
  · intro j e hj hintj hjw d hhd
    have hcj : (j, d) ∈ candidates hits 0 es :=
      (mem_candidates hits es 0 (j, d)).mpr ⟨j, e, by omega, hj, hintj, hhd⟩
    rw [hsplit] at hcj
    rcases List.mem_append.mp hcj with h' | h'
    · exact hpre (j, d) h'
    · rcases List.mem_cons.mp h' with h'' | h''
      · exfalso
        have hjc : j = c.1 := congrArg Prod.fst h''
        omega
      · exfalso
        have hpw := candidates_pairwise hits es 0
        rw [hsplit] at hpw
        rcases List.pairwise_append.mp hpw with ⟨_, hpw2, _⟩
        rcases List.pairwise_cons.mp hpw2 with ⟨hcpost, _⟩
        have : c.1 < j := hcpost (j, d) h''
        omega

def c2EntityA : Entity := { intersectable := true, object := some {} }

def c2EntityB : Entity := { intersectable := true, object := some {} }

def c2hits : Nat → List ℚ := fun i => if i = 0 then [2] else if i = 1 then [1] else []

theorem intersection_selects_nearest_first_witness :
    ((∀ i, (c2hits i).Sorted (· ≤ ·)) ∧
      [c2EntityA, c2EntityB].get? 0 = some c2EntityA ∧
      c2EntityA.intersectable = true ∧ c2hits 0 ≠ []) ∧
    (∃ w dw ew, intersectWinner c2hits [c2EntityA, c2EntityB] = (some dw, some w) ∧
      [c2EntityA, c2EntityB].get? w = some ew ∧ ew.intersectable = true ∧
      (c2hits w).head? = some dw ∧
      (∀ j e, [c2EntityA, c2EntityB].get? j = some e → e.intersectable = true →
        ∀ d ∈ c2hits j, dw ≤ d) ∧
      (∀ j e, [c2EntityA, c2EntityB].get? j = some e → e.intersectable = true → j < w →
        ∀ d, (c2hits j).head? = some d → dw < d)) :=
  ⟨⟨by intro i; unfold c2hits; split <;> [simp; split <;> simp], rfl, rfl, by decide⟩,
    intersection_selects_nearest_first c2hits [c2EntityA, c2EntityB]
      (by intro i; unfold c2hits; split <;> [simp; split <;> simp])
      0 c2EntityA rfl rfl (by decide)⟩

/-! ## C5 -/

theorem draggableSwitch_origPar (d1 : Draggable) (o : Object3D) (e : Entity) :
    ((draggableSwitch d1 o e).draggable).map Draggable.originalParent
      = some d1.originalParent := by
  unfold draggableSwitch
  split <;> [rfl; split <;> rfl]

theorem handRayDraggableUpdate_origPar (p : Bool) (pi : Nat) (hp : HandPointer) (e : Entity) :
    (((handRayDraggableUpdate p pi hp e).1.draggable).map Draggable.originalParent)
      = ((e.draggable).map Draggable.originalParent) := by
  unfold handRayDraggableUpdate
  split
  · rfl
  · rename_i d heq
    rw [heq]
    split <;> split <;> rfl

/-- The per-entity update of the HandRay pass preserves `originalParent`. -/
theorem handRay_entity_origPar (p : Bool) (pi : Nat) (hp : HandPointer) (e : Entity) :
    (((handRayDraggableUpdate p pi hp (handRayButtonUpdate p e)).1.draggable).map
      Draggable.originalParent) = ((e.draggable).map Draggable.originalParent) := by
  rw [handRayDraggableUpdate_origPar, handRayButtonUpdate_draggable]

/-- The per-entity update of the HandRay pass never reparents an object. -/
theorem handRay_entity_parent (p : Bool) (pi : Nat) (hp : HandPointer) (e : Entity) :
    (((handRayDraggableUpdate p pi hp (handRayButtonUpdate p e)).1.object).map
      Object3D.parent) = ((e.object).map Object3D.parent) := by
  rw [handRayDraggableUpdate_parent, handRayButtonUpdate_object]

/-- Any entity projection untouched by the HandRay winner update is
untouched by the whole per-pointer HandRay body. -/
theorem handRayExecutePointer_proj {β : Type} (f : Entity → β)
    (hf : ∀ p pi hp e, f ((handRayDraggableUpdate p pi hp (handRayButtonUpdate p e)).1) = f e)
    (inp : PointerInput) (pi : Nat) (hp : HandPointer) (es : List Entity) (j : Nat) :
    (((handRayExecutePointer inp pi hp es).2.get? j).map f) = ((es.get? j).map f) := by
  unfold handRayExecutePointer
  split
  · unfold handRayWinnerUpdate
    rcases (intersectWinner inp.hits es).2 with _ | w
    · rfl
    · dsimp only
      rcases hw : es.get? w with _ | e
      · rfl
      · exact get?_set_map_eq es w e _ f hw (hf _ _ _ _) j
  · rfl

theorem handRayLoop_proj {β : Type} (f : Entity → β)
    (hf : ∀ p pi hp e, f ((handRayDraggableUpdate p pi hp (handRayButtonUpdate p e)).1) = f e)
    (inp : Nat → PointerInput) :
    ∀ (hps : List HandPointer) (i : Nat) (es : List Entity) (j : Nat),
      (((handRayLoop inp i hps es).2.get? j).map f) = ((es.get? j).map f) := by
  intro hps
  induction hps with
  | nil => intro i es j; rfl
  | cons hp hps ih =>
    intro i es j
    show (((handRayLoop inp (i + 1) hps (handRayExecutePointer (inp i) i hp es).2).2.get? j).map f)
      = _
    rw [ih, handRayExecutePointer_proj f hf]

/-- Any entity projection untouched by the HandRay per-entity update equals,
after a whole frame, its value after the four map passes. -/
theorem frame_get?_proj {β : Type} (f : Entity → β)
    (hf : ∀ p pi hp e, f ((handRayDraggableUpdate p pi hp (handRayButtonUpdate p e)).1) = f e)
    (inp : FrameInput) (s : WorldState) (j : Nat) :
    ((frame inp s).entities.get? j).map f
      = ((s.entities.get? j).map (fun e => f (draggableExecuteEntity (buttonExecuteEntity
          (calibrationExecuteEntity inp.sessionActive inp.cameraPosition
            (instructionExecuteEntity (instructionVisible inp.controllersVisible) e)))))) := by
  rw [frame_entities_eq]
  rw [handRayLoop_proj f hf]
  simp only [draggableExecute, buttonExecute, calibrationExecute, instructionExecute,
    List.get?_map]
  cases s.entities.get? j <;> rfl

theorem prePasses_draggable (inp : FrameInput) (e : Entity) :
    (buttonExecuteEntity (calibrationExecuteEntity inp.sessionActive inp.cameraPosition
      (instructionExecuteEntity (instructionVisible inp.controllersVisible) e))).draggable
      = e.draggable := by
  rw [buttonExecuteEntity_draggable, calibrationExecuteEntity_draggable,
    instructionExecuteEntity_draggable]

theorem prePasses_parent (inp : FrameInput) (e : Entity) :
    ((buttonExecuteEntity (calibrationExecuteEntity inp.sessionActive inp.cameraPosition
      (instructionExecuteEntity (instructionVisible inp.controllersVisible) e))).object).map
        Object3D.parent = (e.object).map Object3D.parent := by
  rw [buttonExecuteEntity_parent, calibrationExecuteEntity_parent,
    instructionExecuteEntity_parent]

theorem draggableCapture_of_some (d : Draggable) (o : Object3D) (p : ParentRef)
    (h : d.originalParent = some p) : draggableCapture d o = d := by
  unfold draggableCapture
  rw [if_neg]
  simp [h]

theorem draggableSwitch_detached (d1 : Draggable) (o : Object3D) (e : Entity)
    (h : d1.state = "to-be-detached") :
    draggableSwitch d1 o e =
      { e with
        draggable := some { d1 with state := "detached" }
        object := some { o with parent := d1.originalParent } } := by
  have h1 : ¬((d1.state == "to-be-attached") = true) := by simp [h]
  have h2 : (d1.state == "to-be-detached") = true := by simp [h]
  unfold draggableSwitch
  rw [if_neg h1, if_pos h2]

theorem draggableExecuteEntity_no_object (e : Entity) (h : e.object = none) :
    draggableExecuteEntity e = e := by
  unfold draggableExecuteEntity
  cases hd : e.draggable <;> rw [h]

/-- First Draggable-pass update with a still-null `originalParent`: the
frame captures the object's parent (as it was at frame start — the
Instruction, Calibration and Button passes never reparent). -/
theorem frame_captures_origPar (inp : FrameInput) (s : WorldState) (j : Nat)
    (e : Entity) (d : Draggable) (ob : Object3D)
    (he : s.entities.get? j = some e) (hd : e.draggable = some d)
    (hdo : d.originalParent = none) (ho : e.object = some ob) :
    ∃ e' d', (frame inp s).entities.get? j = some e' ∧ e'.draggable = some d' ∧
      d'.originalParent = ob.parent := by
  have he3d : (buttonExecuteEntity (calibrationExecuteEntity inp.sessionActive
      inp.cameraPosition (instructionExecuteEntity (instructionVisible inp.controllersVisible)
        e))).draggable = some d := by
    rw [prePasses_draggable, hd]
  have hpp := prePasses_parent inp e
  rw [ho] at hpp
  simp only [Option.map_some'] at hpp
  rcases Option.map_eq_some'.mp hpp with ⟨ob3, hob3, hpar⟩
  have hde : draggableExecuteEntity (buttonExecuteEntity (calibrationExecuteEntity
      inp.sessionActive inp.cameraPosition (instructionExecuteEntity
        (instructionVisible inp.controllersVisible) e)))
      = draggableSwitch (draggableCapture d ob3) ob3 (buttonExecuteEntity
          (calibrationExecuteEntity inp.sessionActive inp.cameraPosition
            (instructionExecuteEntity (instructionVisible inp.controllersVisible) e))) := by
    unfold draggableExecuteEntity
    rw [he3d, hob3]
  have hcap : (draggableCapture d ob3).originalParent = ob3.parent := by
    unfold draggableCapture
    rw [if_pos hdo]
  have hproj := frame_get?_proj (fun e => (e.draggable).map Draggable.originalParent)
    handRay_entity_origPar inp s j
  rw [he] at hproj
  simp only [Option.map_some'] at hproj
  rw [hde, draggableSwitch_origPar, hcap, hpar] at hproj
  rcases Option.map_eq_some'.mp hproj with ⟨e', he', hf1e⟩
  rcases Option.map_eq_some'.mp hf1e with ⟨d', hd', hop⟩
  exact ⟨e', d', he', hd', hop⟩

/-- Once set, `originalParent` survives one frame unchanged. -/
theorem frame_origPar_persist (inp : FrameInput) (s : WorldState) (j : Nat)
    (e : Entity) (d : Draggable) (p : ParentRef)
    (he : s.entities.get? j = some e) (hd : e.draggable = some d)
    (hop : d.originalParent = some p) :
    ∃ e' d', (frame inp s).entities.get? j = some e' ∧ e'.draggable = some d' ∧
      d'.originalParent = some p := by
  have he3d : (buttonExecuteEntity (calibrationExecuteEntity inp.sessionActive
      inp.cameraPosition (instructionExecuteEntity (instructionVisible inp.controllersVisible)
        e))).draggable = some d := by
    rw [prePasses_draggable, hd]
  have hproj := frame_get?_proj (fun e => (e.draggable).map Draggable.originalParent)
    handRay_entity_origPar inp s j
  rw [he] at hproj
  simp only [Option.map_some'] at hproj
  have hval : ((draggableExecuteEntity (buttonExecuteEntity (calibrationExecuteEntity
      inp.sessionActive inp.cameraPosition (instructionExecuteEntity
        (instructionVisible inp.controllersVisible) e)))).draggable).map
          Draggable.originalParent = some (some p) := by
    rcases hob : (buttonExecuteEntity (calibrationExecuteEntity inp.sessionActive
        inp.cameraPosition (instructionExecuteEntity (instructionVisible inp.controllersVisible)
          e))).object with _ | ob3
    · rw [draggableExecuteEntity_no_object _ hob, he3d]
      simp [hop]
    · have hde : draggableExecuteEntity (buttonExecuteEntity (calibrationExecuteEntity
          inp.sessionActive inp.cameraPosition (instructionExecuteEntity
            (instructionVisible inp.controllersVisible) e)))
          = draggableSwitch (draggableCapture d ob3) ob3 (buttonExecuteEntity
              (calibrationExecuteEntity inp.sessionActive inp.cameraPosition
                (instructionExecuteEntity (instructionVisible inp.controllersVisible) e))) := by
        unfold draggableExecuteEntity
        rw [he3d, hob]
      rw [hde, draggableSwitch_origPar, draggableCapture_of_some d ob3 p hop, hop]
  rw [hval] at hproj
  rcases Option.map_eq_some'.mp hproj with ⟨e', he', hf1e⟩
  rcases Option.map_eq_some'.mp hf1e with ⟨d', hd', hop'⟩
  exact ⟨e', d', he', hd', hop'⟩

/-- Once set, `originalParent` survives any number of frames unchanged. -/
theorem run_origPar_persist : ∀ (L : List FrameInput) (s : WorldState) (j : Nat)
    (e : Entity) (d : Draggable) (p : ParentRef),
    s.entities.get? j = some e → e.draggable = some d → d.originalParent = some p →
    ∃ e' d', (run L s).entities.get? j = some e' ∧ e'.draggable = some d' ∧
      d'.originalParent = some p := by
  intro L
  induction L with
  | nil => exact fun s j e d p he hd hop => ⟨e, d, he, hd, hop⟩
  | cons i L ih =>
    intro s j e d p he hd hop
    rcases frame_origPar_persist i s j e d p he hd hop with ⟨e', d', he', hd', hop'⟩
    exact ih (frame i s) j e' d' p he' hd' hop'

/-- A `to-be-detached` Draggable is reparented to its `originalParent` by
the frame's Draggable pass, and no later pass of the frame reparents it. -/
theorem frame_detach_restores (inp : FrameInput) (s : WorldState) (j : Nat)
    (e : Entity) (d : Draggable) (p : ParentRef) (ob : Object3D)
    (he : s.entities.get? j = some e) (hd : e.draggable = some d)
    (hst : d.state = "to-be-detached") (hop : d.originalParent = some p)
    (ho : e.object = some ob) :
    ∃ e' ob', (frame inp s).entities.get? j = some e' ∧ e'.object = some ob' ∧
      ob'.parent = some p := by
  have he3d : (buttonExecuteEntity (calibrationExecuteEntity inp.sessionActive
      inp.cameraPosition (instructionExecuteEntity (instructionVisible inp.controllersVisible)
        e))).draggable = some d := by
    rw [prePasses_draggable, hd]
  have hpp := prePasses_parent inp e
  rw [ho] at hpp
  simp only [Option.map_some'] at hpp
  rcases Option.map_eq_some'.mp hpp with ⟨ob3, hob3, _⟩
  have hde : draggableExecuteEntity (buttonExecuteEntity (calibrationExecuteEntity
      inp.sessionActive inp.cameraPosition (instructionExecuteEntity
        (instructionVisible inp.controllersVisible) e)))
      = draggableSwitch (draggableCapture d ob3) ob3 (buttonExecuteEntity
          (calibrationExecuteEntity inp.sessionActive inp.cameraPosition
            (instructionExecuteEntity (instructionVisible inp.controllersVisible) e))) := by
    unfold draggableExecuteEntity
    rw [he3d, hob3]
  have hproj := frame_get?_proj (fun e => (e.object).map Object3D.parent)
    handRay_entity_parent inp s j
  rw [he] at hproj
  simp only [Option.map_some'] at hproj
  rw [hde, draggableCapture_of_some d ob3 p hop,
    draggableSwitch_detached d ob3 _ hst] at hproj
  simp only [Option.map_some'] at hproj
  rw [hop] at hproj
  rcases Option.map_eq_some'.mp hproj with ⟨e', he', hf2e⟩
  rcases Option.map_eq_some'.mp hf2e with ⟨ob', hob', hpar'⟩
  exact ⟨e', ob', he', hob', hpar'⟩

/-- C5: (capture) on the first Draggable-pass update of an entity with a
still-null `originalParent` the frame sets `originalParent` to the bound
object's parent; (persistence) a set `originalParent` is never overwritten,
over any number of frames with any inputs; (restore) a frame that processes
the entity in state `"to-be-detached"` ends with the bound object's parent
equal to the stored `originalParent` — together: an attach-then-detach
cycle restores the parent captured at first observation, no matter how many
frames the entity spent attached. -/
theorem draggable_roundtrip_restores_parent :
    (∀ inp s j e d ob, s.entities.get? j = some e → e.draggable = some d →
      d.originalParent = none → e.object = some ob →
      ∃ e' d', (frame inp s).entities.get? j = some e' ∧ e'.draggable = some d' ∧
        d'.originalParent = ob.parent) ∧
    (∀ L s j e d p, s.entities.get? j = some e → e.draggable = some d →
      d.originalParent = some p →
      ∃ e' d', (run L s).entities.get? j = some e' ∧ e'.draggable = some d' ∧
        d'.originalParent = some p) ∧
    (∀ inp s j e d p ob, s.entities.get? j = some e → e.draggable = some d →
      d.state = "to-be-detached" → d.originalParent = some p → e.object = some ob →
      ∃ e' ob', (frame inp s).entities.get? j = some e' ∧ e'.object = some ob' ∧
        ob'.parent = some p) :=
  ⟨fun inp s j e d ob he hd hdo ho => frame_captures_origPar inp s j e d ob he hd hdo ho,
   fun L s j e d p he hd hop => run_origPar_persist L s j e d p he hd hop,
   fun inp s j e d p ob he hd hst hop ho =>
     frame_detach_restores inp s j e d p ob he hd hst hop ho⟩

def c5DetachEntity : Entity :=
  { draggable := some
      { state := "to-be-detached", originalParent := some (ParentRef.node 3),
        attachedPointer := none }
    object := some { parent := some (ParentRef.pointerChild 0) } }

def c5State : WorldState := { entities := [c5DetachEntity], pointers := [{}] }

def c5Input : FrameInput :=
  { pointerInput := fun _ => { pinched := false, hits := fun _ => [] }
    sessionActive := false
    cameraPosition := (0, 0, 0)
    controllersVisible := [] }

theorem draggable_roundtrip_restores_parent_witness :
    (c5State.entities.get? 0 = some c5DetachEntity ∧
      c5DetachEntity.draggable = some
        { state := "to-be-detached", originalParent := some (ParentRef.node 3),
          attachedPointer := none } ∧
      c5DetachEntity.object = some { parent := some (ParentRef.pointerChild 0) }) ∧
    (∃ e' ob', (frame c5Input c5State).entities.get? 0 = some e' ∧ e'.object = some ob' ∧
      ob'.parent = some (ParentRef.node 3)) :=
  ⟨⟨rfl, rfl, rfl⟩,
    draggable_roundtrip_restores_parent.2.2 c5Input c5State 0 c5DetachEntity _
      (ParentRef.node 3) _ rfl rfl rfl rfl rfl⟩

/-! ## C6 -/

def c6ButtonEntity : Entity := { intersectable := true, button := some {}, object := some {} }

def c6State : WorldState := { entities := [c6ButtonEntity], pointers := [{}] }

def c6Input : FrameInput :=
  { pointerInput := fun _ => { pinched := true, hits := fun _ => [1] }
    sessionActive := false
    cameraPosition := (0, 0, 0)
    controllersVisible := [] }

/-- C6 counterexample: in the registration order of src/index.js lines
399-408 the Button pass (index 2) runs *before* the HandRay/Intersection
pass (index 4) — not after it, as the claim requires.  Behaviorally: a
pinch over an idle button produces no action fire in that same frame (the
Button pass saw the pre-frame state), and the fire only happens one frame
later, which would be impossible if the Intersection pass ran first. -/
theorem pass_order_counterexample :
    registeredSystems.indexOf SystemName.button < registeredSystems.indexOf SystemName.handRay ∧
    registeredSystems.indexOf SystemName.handRay = 4 ∧
    frameFires c6Input c6State = [false] ∧
    frameFires c6Input (frame c6Input c6State) = [true] := by
  refine ⟨by decide, by decide, by decide, by decide⟩

/-- C6 (amended): within each frame the five passes run synchronously in
the fixed registration order Instruction → Calibration → Button → Draggable
→ HandRay (the Intersection pass last); the Button pass consumes button
state untouched by the two passes running before it in the same frame —
i.e. exactly what the previous frame's HandRay pass left behind. -/
theorem pass_order_amended (inp : FrameInput) (s : WorldState) :
    registeredSystems = [SystemName.instruction, SystemName.calibration, SystemName.button,
      SystemName.draggable, SystemName.handRay] ∧
    frame inp s = applySystem inp (applySystem inp (applySystem inp (applySystem inp
      (applySystem inp s .instruction) .calibration) .button) .draggable) .handRay ∧
    (applySystem inp (applySystem inp s .instruction) .calibration).entities.map Entity.button
      = s.entities.map Entity.button := by
  refine ⟨rfl, rfl, ?_⟩
  simp only [applySystem, calibrationExecute, instructionExecute, List.map_map]
  refine List.map_congr_left ?_
  intro e _
  show (calibrationExecuteEntity _ _ (instructionExecuteEntity _ e)).button = e.button
  rw [calibrationExecuteEntity_button, instructionExecuteEntity_button]

/-! ## C4 -/

/-- A Draggable is "active" when claimed by a pointer: state
`"to-be-attached"` (claim granted this frame, conversion pending) or
`"attached"`. -/
def activeState (d : Draggable) : Bool :=
  d.state == "to-be-attached" || d.state == "attached"

def dragActive (e : Entity) : Bool :=
  match e.draggable with
  | some d => activeState d
  | none => false

/-- Per-entity attachment consistency for a single-pointer world (pointer
index 0): `attachedPointer` points at the pointer exactly when the state is
active. -/
def dragOk (e : Entity) : Bool :=
  match e.draggable with
  | some d => (d.attachedPointer == some 0) == activeState d
  | none => true

/-- The attachment invariant of a single-pointer world: the pointer's
`isAttached` flag is set exactly when some Draggable is active, at most one
Draggable is active, and active Draggables carry the pointer reference. -/
def AttachInv (s : WorldState) : Prop :=
  s.pointers.length = 1 ∧
  s.entities.all dragOk = true ∧
  (∀ hp ∈ s.pointers, hp.attached = s.entities.any dragActive) ∧
  s.entities.countP dragActive ≤ 1

instance (s : WorldState) : Decidable (AttachInv s) := by
  unfold AttachInv
  infer_instance

theorem dragActive_congr (e e' : Entity) (h : e'.draggable = e.draggable) :
    dragActive e' = dragActive e := by
  unfold dragActive
  rw [h]

theorem dragOk_congr (e e' : Entity) (h : e'.draggable = e.draggable) :
    dragOk e' = dragOk e := by
  unfold dragOk
  rw [h]

theorem draggableCapture_state (d : Draggable) (o : Object3D) :
    (draggableCapture d o).state = d.state := by
  unfold draggableCapture
  split <;> rfl

theorem draggableCapture_attachedPointer (d : Draggable) (o : Object3D) :
    (draggableCapture d o).attachedPointer = d.attachedPointer := by
  unfold draggableCapture
  split <;> rfl

theorem activeState_capture (d : Draggable) (o : Object3D) :
    activeState (draggableCapture d o) = activeState d := by
  unfold activeState
  rw [draggableCapture_state]

theorem draggableSwitch_dragActive (d1 : Draggable) (o : Object3D) (e : Entity) :
    dragActive (draggableSwitch d1 o e) = activeState d1 := by
  unfold draggableSwitch
  split
  · rename_i h
    have h' : d1.state = "to-be-attached" := by simpa using h
    show activeState { d1 with state := "attached" } = activeState d1
    unfold activeState
    rw [h']
    rfl
  · split
    · rename_i h1 h2
      have h' : d1.state = "to-be-detached" := by simpa using h2
      show activeState { d1 with state := "detached" } = activeState d1
      unfold activeState
      rw [h']
      rfl
    · rfl

theorem draggableSwitch_dragOk (d1 : Draggable) (o : Object3D) (e : Entity) :
    dragOk (draggableSwitch d1 o e)
      = ((d1.attachedPointer == some 0) == activeState d1) := by
  unfold draggableSwitch
  split
  · rename_i h
    have h' : d1.state = "to-be-attached" := by simpa using h
    show ((d1.attachedPointer == some 0) == activeState { d1 with state := "attached" })
      = ((d1.attachedPointer == some 0) == activeState d1)
    unfold activeState
    rw [h']
    rfl
  · split
    · rename_i h1 h2
      have h' : d1.state = "to-be-detached" := by simpa using h2
      show ((d1.attachedPointer == some 0) == activeState { d1 with state := "detached" })
        = ((d1.attachedPointer == some 0) == activeState d1)
      unfold activeState
      rw [h']
      rfl
    · rfl

theorem draggableExecuteEntity_dragActive (e : Entity) :
    dragActive (draggableExecuteEntity e) = dragActive e := by
  unfold draggableExecuteEntity
  split
  · rename_i d o hd ho
    rw [draggableSwitch_dragActive, activeState_capture]
    unfold dragActive
    rw [hd]
  · rfl

theorem draggableExecuteEntity_dragOk (e : Entity) :
    dragOk (draggableExecuteEntity e) = dragOk e := by
  unfold draggableExecuteEntity
  split
  · rename_i d o hd ho
    rw [draggableSwitch_dragOk, draggableCapture_attachedPointer, activeState_capture]
    unfold dragOk
    rw [hd]
  · rfl

theorem all_map_of_eq {α : Type} (l : List α) (f : α → α) (p : α → Bool)
    (h : ∀ a, p (f a) = p a) : (l.map f).all p = l.all p := by
  induction l with
  | nil => rfl
  | cons a l ih => simp [h, ih]

theorem any_map_of_eq {α : Type} (l : List α) (f : α → α) (p : α → Bool)
    (h : ∀ a, p (f a) = p a) : (l.map f).any p = l.any p := by
  induction l with
  | nil => rfl
  | cons a l ih => simp [h, ih]

theorem countP_map_of_eq {α : Type} (l : List α) (f : α → α) (p : α → Bool)
    (h : ∀ a, p (f a) = p a) : (l.map f).countP p = l.countP p := by
  induction l with
  | nil => rfl
  | cons a l ih =>
    show ((f a :: l.map f).countP p) = _
    rw [List.countP_cons, List.countP_cons, h, ih]

/-- Replacing one element exchanges its predicate count for the new one. -/
theorem countP_set_exchange {α : Type} (p : α → Bool) :
    ∀ (l : List α) (w : Nat) (a e : α), l.get? w = some e →
      (l.set w a).countP p + (if p e then 1 else 0)
        = l.countP p + (if p a then 1 else 0) := by
  intro l
  induction l with
  | nil => intro w a e h; simp at h
  | cons x xs ih =>
    intro w a e h
    rcases w with _ | w
    · have hx : x = e := Option.some.inj h
      subst hx
      show ((a :: xs).countP p) + (if p x then 1 else 0)
        = ((x :: xs).countP p) + (if p a then 1 else 0)
      rw [List.countP_cons, List.countP_cons]
      omega
    · have h' : xs.get? w = some e := h
      show ((x :: xs.set w a).countP p) + (if p e then 1 else 0)
        = ((x :: xs).countP p) + (if p a then 1 else 0)
      rw [List.countP_cons, List.countP_cons]
      have hih := ih w a e h'
      omega

theorem all_set_of_all {α : Type} (p : α → Bool) (l : List α) (w : Nat) (a : α)
    (hl : l.all p = true) (ha : p a = true) : (l.set w a).all p = true := by
  rw [List.all_eq_true] at hl ⊢
  intro x hx
  rcases List.mem_or_eq_of_mem_set hx with h | h
  · exact hl x h
  · rw [h]; exact ha

theorem bool_eq_of_iff {a b : Bool} (h : a = true ↔ b = true) : a = b := by
  cases a <;> cases b <;> simp_all

theorem any_eq_countP_pos {α : Type} (p : α → Bool) (l : List α) :
    l.any p = true ↔ 0 < l.countP p := by
  rw [List.any_eq_true, List.countP_pos_iff]

theorem any_eq_false_of_countP_zero {α : Type} (p : α → Bool) (l : List α)
    (h : l.countP p = 0) : l.any p = false := by
  rcases hb : l.any p
  · rfl
  · exfalso
    have := (any_eq_countP_pos p l).mp hb
    omega

/-- A pass that maps entities without touching their Draggable components
(or more precisely: without changing `dragActive`/`dragOk`) preserves the
attachment invariant. -/
theorem attachInv_map_pass (s : WorldState) (f : Entity → Entity)
    (hA : ∀ e, dragActive (f e) = dragActive e) (hO : ∀ e, dragOk (f e) = dragOk e)
    (h : AttachInv s) : AttachInv { s with entities := s.entities.map f } := by
  obtain ⟨hlen, hall, hptr, hcnt⟩ := h
  refine ⟨hlen, ?_, ?_, ?_⟩
  · show (s.entities.map f).all dragOk = true
    rw [all_map_of_eq _ _ _ hO]
    exact hall
  · intro hq hqm
    show hq.attached = (s.entities.map f).any dragActive
    rw [any_map_of_eq _ _ _ hA]
    exact hptr hq hqm
  · show (s.entities.map f).countP dragActive ≤ 1
    rw [countP_map_of_eq _ _ _ hA]
    exact hcnt

/-- The three possible outcomes of the HandRay draggable branch for the
winning entity: no change, attach grant, or detach request. -/
theorem handRayDraggableUpdate_trichotomy (p : Bool) (pi : Nat) (hp : HandPointer)
    (e : Entity) :
    ((handRayDraggableUpdate p pi hp e).1.draggable = e.draggable ∧
      (handRayDraggableUpdate p pi hp e).2.attached = hp.attached) ∨
    (∃ d, e.draggable = some d ∧ hp.attached = false ∧ d.state ≠ "attached" ∧
      (handRayDraggableUpdate p pi hp e).1.draggable
        = some { d with state := "to-be-attached", attachedPointer := some pi } ∧
      (handRayDraggableUpdate p pi hp e).2.attached = true) ∨
    (∃ d, e.draggable = some d ∧ hp.attached = true ∧ d.state = "attached" ∧
      (handRayDraggableUpdate p pi hp e).1.draggable
        = some { d with state := "to-be-detached", attachedPointer := none } ∧
      (handRayDraggableUpdate p pi hp e).2.attached = false) := by
  unfold handRayDraggableUpdate
  split
  · left
    exact ⟨rfl, rfl⟩
  · rename_i d hd
    split
    · split
      · rename_i hpin hcond
        rcases Bool.and_eq_true_iff.mp hcond with ⟨hna, hns⟩
        right; left
        exact ⟨d, hd, by simpa using hna, by simpa using hns, rfl, rfl⟩
      · left
        exact ⟨rfl, rfl⟩
    · split
      · rename_i hpin hcond
        rcases Bool.and_eq_true_iff.mp hcond with ⟨hat, hst⟩
        right; right
        exact ⟨d, hd, hat, by simpa using hst, rfl, rfl⟩
      · left
        exact ⟨rfl, rfl⟩

/-- The HandRay winner update preserves the components of the attachment
invariant. -/
theorem attachInv_winner (pinched : Bool) (hpc : HandPointer) (es : List Entity) (w : Nat)
    (e : Entity) (hw : es.get? w = some e)
    (hall : es.all dragOk = true) (hptr : hpc.attached = es.any dragActive)
    (hcnt : es.countP dragActive ≤ 1) :
    (es.set w (handRayDraggableUpdate pinched 0 hpc (handRayButtonUpdate pinched e)).1).all
        dragOk = true ∧
    (handRayDraggableUpdate pinched 0 hpc (handRayButtonUpdate pinched e)).2.attached
      = (es.set w (handRayDraggableUpdate pinched 0 hpc
          (handRayButtonUpdate pinched e)).1).any dragActive ∧
    (es.set w (handRayDraggableUpdate pinched 0 hpc
      (handRayButtonUpdate pinched e)).1).countP dragActive ≤ 1 := by
  have he1 : (handRayButtonUpdate pinched e).draggable = e.draggable :=
    handRayButtonUpdate_draggable _ _
  have hmem : e ∈ es := List.get?_mem hw
  have hOkE : dragOk e = true := List.all_eq_true.mp hall e hmem
  rcases handRayDraggableUpdate_trichotomy pinched 0 hpc (handRayButtonUpdate pinched e) with
    ⟨hDd, hDa⟩ | ⟨d, hd1, hpa, hst, hDd, hDa⟩ | ⟨d, hd1, hpa, hst, hDd, hDa⟩
  · -- no change to the winner's Draggable or to the attach flag
    rw [he1] at hDd
    generalize handRayDraggableUpdate pinched 0 hpc (handRayButtonUpdate pinched e) = D
      at hDd hDa ⊢
    have hcA : dragActive D.1 = dragActive e := dragActive_congr _ _ hDd
    have hoA : dragOk D.1 = dragOk e := dragOk_congr _ _ hDd
    have hx := countP_set_exchange dragActive es w D.1 e hw
    rw [hcA] at hx
    have hcountEq : (es.set w D.1).countP dragActive = es.countP dragActive := by omega
    have h2 : (es.set w D.1).any dragActive = es.any dragActive := by
      apply bool_eq_of_iff
      rw [any_eq_countP_pos, any_eq_countP_pos, hcountEq]
    refine ⟨all_set_of_all dragOk es w D.1 hall (by rw [hoA]; exact hOkE), ?_,
      by rw [hcountEq]; exact hcnt⟩
    rw [hDa, h2]
    exact hptr
  · -- attach grant
    have hde : e.draggable = some d := by rw [← he1]; exact hd1
    generalize handRayDraggableUpdate pinched 0 hpc (handRayButtonUpdate pinched e) = D
      at hDd hDa ⊢
    have hanyF : es.any dragActive = false := by rw [← hptr]; exact hpa
    have hc0 : es.countP dragActive = 0 := by
      rcases Nat.eq_zero_or_pos (es.countP dragActive) with h0 | h0
      · exact h0
      · exfalso
        have hT := (any_eq_countP_pos dragActive es).mpr h0
        rw [hanyF] at hT
        simp at hT
    have hAeF : dragActive e = false := by
      have := List.countP_eq_zero.mp hc0 e hmem
      simpa using this
    have hDT : dragActive D.1 = true := by
      unfold dragActive
      rw [hDd]
      rfl
    have hDO : dragOk D.1 = true := by
      unfold dragOk
      rw [hDd]
      rfl
    have hx := countP_set_exchange dragActive es w D.1 e hw
    rw [hAeF, hDT] at hx
    simp at hx
    refine ⟨all_set_of_all dragOk es w D.1 hall hDO, ?_, by omega⟩
    rw [hDa]
    exact ((any_eq_countP_pos dragActive _).mpr (by omega)).symm
  · -- detach request
    have hde : e.draggable = some d := by rw [← he1]; exact hd1
    generalize handRayDraggableUpdate pinched 0 hpc (handRayButtonUpdate pinched e) = D
      at hDd hDa ⊢
    have hAeT : dragActive e = true := by
      unfold dragActive
      rw [hde]
      show activeState d = true
      unfold activeState
      rw [hst]
      rfl
    have hDT : dragActive D.1 = false := by
      unfold dragActive
      rw [hDd]
      rfl
    have hDO : dragOk D.1 = true := by
      unfold dragOk
      rw [hDd]
      rfl
    have hx := countP_set_exchange dragActive es w D.1 e hw
    rw [hAeT, hDT] at hx
    simp at hx
    have hc0' : (es.set w D.1).countP dragActive = 0 := by omega
    refine ⟨all_set_of_all dragOk es w D.1 hall hDO, ?_, by omega⟩
    rw [hDa]
    exact (any_eq_false_of_countP_zero dragActive _ hc0').symm

/-- The per-pointer HandRay body preserves the single-pointer attachment
invariant (stated on the components of `AttachInv`). -/
theorem attachInv_pointer (inp : PointerInput) (hp : HandPointer) (es : List Entity)
    (hall : es.all dragOk = true) (hptr : hp.attached = es.any dragActive)
    (hcnt : es.countP dragActive ≤ 1) :
    (handRayExecutePointer inp 0 hp es).2.all dragOk = true ∧
    (handRayExecutePointer inp 0 hp es).1.attached
      = (handRayExecutePointer inp 0 hp es).2.any dragActive ∧
    (handRayExecutePointer inp 0 hp es).2.countP dragActive ≤ 1 := by
  unfold handRayExecutePointer
  split
  · unfold handRayWinnerUpdate
    rcases (intersectWinner inp.hits es).2 with _ | w
    · exact ⟨hall, hptr, hcnt⟩
    · dsimp only
      rcases hw : es.get? w with _ | e
      · exact ⟨hall, hptr, hcnt⟩
      · exact attachInv_winner inp.pinched _ es w e hw hall hptr hcnt
  · exact ⟨hall, hptr, hcnt⟩

/-- The whole HandRay pass preserves the attachment invariant. -/
theorem attachInv_handRay (inp : Nat → PointerInput) (s : WorldState) (h : AttachInv s) :
    AttachInv (handRayExecute inp s) := by
  obtain ⟨hlen, hall, hptr, hcnt⟩ := h
  rcases hps : s.pointers with _ | ⟨hp, rest⟩
  · rw [hps] at hlen
    simp at hlen
  · rcases rest with _ | ⟨hp2, rest2⟩
    · have hptr1 : hp.attached = s.entities.any dragActive :=
        hptr hp (by rw [hps]; exact List.mem_cons_self _ _)
      have hmain := attachInv_pointer (inp 0) hp s.entities hall hptr1 hcnt
      unfold handRayExecute
      rw [hps]
      refine ⟨rfl, hmain.1, ?_, hmain.2.2⟩
      intro hq hqm
      have hq1 : hq = (handRayExecutePointer (inp 0) 0 hp s.entities).1 := by
        have hqm' : hq ∈ (handRayLoop inp 0 [hp] s.entities).1 := hqm
        have hloop : (handRayLoop inp 0 [hp] s.entities).1
            = [(handRayExecutePointer (inp 0) 0 hp s.entities).1] := rfl
        rw [hloop] at hqm'
        simpa using hqm'
      rw [hq1]
      exact hmain.2.1
    · rw [hps] at hlen
      simp at hlen

/-- Every registered system preserves the attachment invariant. -/
theorem attachInv_applySystem (inp : FrameInput) (s : WorldState) (h : AttachInv s) :
    ∀ sys, AttachInv (applySystem inp s sys) := by
  intro sys
  cases sys
  case instruction =>
    exact attachInv_map_pass s _
      (fun e => dragActive_congr _ _ (instructionExecuteEntity_draggable _ e))
      (fun e => dragOk_congr _ _ (instructionExecuteEntity_draggable _ e)) h
  case calibration =>
    exact attachInv_map_pass s _
      (fun e => dragActive_congr _ _ (calibrationExecuteEntity_draggable _ _ e))
      (fun e => dragOk_congr _ _ (calibrationExecuteEntity_draggable _ _ e)) h
  case button =>
    exact attachInv_map_pass s _
      (fun e => dragActive_congr _ _ (buttonExecuteEntity_draggable e))
      (fun e => dragOk_congr _ _ (buttonExecuteEntity_draggable e)) h
  case draggable =>
    exact attachInv_map_pass s _
      (fun e => draggableExecuteEntity_dragActive e)
      (fun e => draggableExecuteEntity_dragOk e) h
  case handRay => exact attachInv_handRay inp.pointerInput s h

theorem attachInv_frame (inp : FrameInput) (s : WorldState) (h : AttachInv s) :
    AttachInv (frame inp s) := by
  rw [frame_eq_passes]
  exact attachInv_applySystem inp _
    (attachInv_applySystem inp _
      (attachInv_applySystem inp _
        (attachInv_applySystem inp _
          (attachInv_applySystem inp s h .instruction) .calibration) .button) .draggable)
    .handRay

theorem attachInv_run : ∀ (L : List FrameInput) (s : WorldState), AttachInv s →
    AttachInv (run L s) := by
  intro L
  induction L with
  | nil => exact fun s h => h
  | cons i L ih => exact fun s h => ih (frame i s) (attachInv_frame i s h)

/-- C4 (amended): in a world driven by a single hand pointer, starting from
any state satisfying the attachment invariant (in particular the initial
scene state: pointer not attached, no Draggable claimed), after any number
of frames with any inputs: whenever the pointer's `isAttached()` flag is
true, exactly one Draggable entity has `attachedPointer` equal to that
pointer and state `"to-be-attached"` or `"attached"`. -/
theorem pointer_attachment_unique_amended (s0 : WorldState) (h0 : AttachInv s0)
    (L : List FrameInput) (hp : HandPointer)
    (hps : (run L s0).pointers = [hp]) (hatt : hp.attached = true) :
    (run L s0).entities.countP
      (fun e => match e.draggable with
        | some d => (d.attachedPointer == some 0) && activeState d
        | none => false) = 1 := by
  obtain ⟨hlen, hall, hptr, hcnt⟩ := attachInv_run L s0 h0
  have hmem : hp ∈ (run L s0).pointers := by
    rw [hps]
    exact List.mem_cons_self _ _
  have hany := hptr hp hmem
  rw [hatt] at hany
  have hpos : 0 < (run L s0).entities.countP dragActive :=
    (any_eq_countP_pos dragActive _).mp hany.symm
  have hcong : (run L s0).entities.countP
      (fun e => match e.draggable with
        | some d => (d.attachedPointer == some 0) && activeState d
        | none => false) = (run L s0).entities.countP dragActive := by
    apply List.countP_congr
    intro x hx
    have hOk : dragOk x = true := List.all_eq_true.mp hall x hx
    unfold dragOk at hOk
    rcases hdx : x.draggable with _ | d
    · simp only [hdx, dragActive]
    · simp only [hdx] at hOk
      have hOk' : (d.attachedPointer == some 0) = activeState d := by simpa using hOk
      simp only [hdx, dragActive, hOk', Bool.and_self]
  rw [hcong]
  omega

def c4Object : Object3D := { parent := some (ParentRef.node 1) }

def c4DragEntity : Entity :=
  { intersectable := true, draggable := some {}, object := some c4Object }

def c4TwoPointerState : WorldState := { entities := [c4DragEntity], pointers := [{}, {}] }

def c4PinchInput : FrameInput :=
  { pointerInput := fun _ => { pinched := true, hits := fun _ => [1] }
    sessionActive := false
    cameraPosition := (0, 0, 0)
    controllersVisible := [] }

/-- C4 counterexample: two pinching pointers over the same Draggable in one
frame.  The first pointer is granted the attachment; the second — its guard
only rejects state `"attached"`, and the state is `"to-be-attached"` —
steals it, overwriting `attachedPointer` and setting its own flag.  At the
end of the frame pointer 0 has `isAttached() = true`, yet no Draggable at
all has `attachedPointer` = pointer 0 (so certainly not exactly one in
state `"attached"`), and pointer 1's only claimed Draggable is in state
`"to-be-attached"`, not `"attached"`. -/
theorem pointer_attachment_unique_counterexample :
    (frame c4PinchInput c4TwoPointerState).pointers.map HandPointer.attached
      = [true, true] ∧
    (frame c4PinchInput c4TwoPointerState).entities.countP
      (fun e => match e.draggable with
        | some d => d.attachedPointer == some 0
        | none => false) = 0 ∧
    (frame c4PinchInput c4TwoPointerState).entities.countP
      (fun e => match e.draggable with
        | some d => (d.attachedPointer == some 1) && (d.state == "attached")
        | none => false) = 0 ∧
    (frame c4PinchInput c4TwoPointerState).entities.map
      (fun e => e.draggable.map Draggable.attachedPointer) = [some (some 1)] := by
  exact ⟨by decide, by decide, by decide, by decide⟩

def c4SingleState : WorldState := { entities := [c4DragEntity], pointers := [{}] }

theorem pointer_attachment_unique_amended_witness :
    (AttachInv c4SingleState ∧
      (run [c4PinchInput] c4SingleState).pointers = [{ attached := true, cursor := 1 }] ∧
      ({ attached := true, cursor := 1 } : HandPointer).attached = true) ∧
    (run [c4PinchInput] c4SingleState).entities.countP
      (fun e => match e.draggable with
        | some d => (d.attachedPointer == some 0) && activeState d
        | none => false) = 1 :=
  ⟨⟨by decide, by decide, rfl⟩,
    pointer_attachment_unique_amended c4SingleState (by decide) [c4PinchInput]
      { attached := true, cursor := 1 } (by decide) rfl⟩

end HandTracking
